import Mathlib

/-
Verification of the DNA kinship matcher in
src/codechallenge2025/participant_solution.py (function match_single and the
batch driver find_matches).  Python strings are modelled as their character
sequences, Python floats by exact rationals, and Python exceptions (the
ValueError raised by float()) by the Except monad.
-/

deriving instance DecidableEq for Except

namespace CodeChallenge

/-- Error signalled when a non-missing raw genotype value fails numeric
parsing; models the ValueError that Python's float() raises inside
match_single (lines 64-65).  Carries the characters of the offending raw
value. -/
structure ParseError where
  raw : List Char
deriving DecidableEq

/-- Strip leading and trailing whitespace, modelling Python str.strip(). -/
def trimChars (s : List Char) : List Char :=
  ((s.dropWhile Char.isWhitespace).reverse.dropWhile Char.isWhitespace).reverse

/-- Split a character sequence on a separator character, modelling Python
str.split(sep) with a one-character separator. -/
def splitOnChar (sep : Char) : List Char → List (List Char)
  | [] => [[]]
  | ch :: rest =>
    match splitOnChar sep rest with
    | [] => if ch = sep then [[], []] else [[ch]]
    | w :: ws => if ch = sep then [] :: w :: ws else (ch :: w) :: ws

/-- Accumulator pass of the digit-string parser. -/
def digitsToNatAux : Nat → List Char → Option Nat
  | acc, [] => some acc
  | acc, ch :: rest =>
    if ch.isDigit then digitsToNatAux (acc * 10 + (ch.toNat - 48)) rest
    else none

/-- Parse a non-empty all-digit character sequence to a natural number. -/
def digitsToNat? (s : List Char) : Option Nat :=
  if s = [] then none else digitsToNatAux 0 s

/-- Parse one token to a rational, modelling Python float() on plain decimal
literals: surrounding whitespace is ignored, an optional sign is followed by
digits with an optional fractional part (forms such as "9", "+9.3", "-0.5",
"9.", ".5" succeed; anything else fails with ValueError). -/
def parseDecimal? (s : List Char) : Option ℚ :=
  let t := trimChars s
  let core : List Char → Option ℚ := fun body =>
    match splitOnChar '.' body with
    | [i] => (digitsToNat? i).map (fun n => (n : ℚ))
    | [i, f] =>
      if i = [] ∧ f = [] then none
      else
        match (if i = [] then some 0 else digitsToNat? i),
              (if f = [] then some 0 else digitsToNat? f) with
        | some ip, some fp => some ((ip : ℚ) + (fp : ℚ) / (10 : ℚ) ^ f.length)
        | _, _ => none
    | _ => none
  match t with
  | '-' :: body => (core body).map Neg.neg
  | '+' :: body => core body
  | _ => core t

/-- Parse a raw locus value into an allele set, following line 64 of the
source: set(map(float, v.split(','))) if ',' in v else a one-element set. -/
def parseAlleles (v : List Char) : Except ParseError (Finset ℚ) :=
  if v.contains ',' then
    match (splitOnChar ',' v).mapM parseDecimal? with
    | some qs => .ok qs.toFinset
    | none => .error ⟨v⟩
  else
    match parseDecimal? v with
    | some q => .ok {q}
    | none => .error ⟨v⟩

/-- A profile: a person identifier plus an ordered association list from locus
name to raw genotype string; models the query dict and a database row. -/
structure Profile where
  personId : String
  loci : List (String × String)
deriving DecidableEq

/-- Resolve a locus value with default "-", modelling
str(row.get(locus, '-')) on lines 57-58. -/
def Profile.getLocus (p : Profile) (locus : String) : String :=
  (p.loci.lookup locus).getD "-"

/-- The query's locus-name list, modelling line 39
(all keys except PersonID, in order). -/
def Profile.lociNames (p : Profile) : List String :=
  p.loci.map Prod.fst

/-- The per-candidate accumulator: the local variables of the scoring loop
(lines 47-53). -/
structure Tally where
  clr : ℚ
  consistent : Nat
  mutated : Nat
  inconclusive : Nat
  exclusions : Nat
  identityMatches : Nat
  compared : Nat
deriving DecidableEq

/-- Initial accumulator values (lines 47-53). -/
def initTally : Tally := ⟨1, 0, 0, 0, 0, 0, 0⟩

/-- The mutation test of line 79:
any(abs(qa-ca) <= 1.0 for qa in q for ca in c if 0 < abs(qa-ca) <= 1.0);
the generator's filter is the first conjunct, its yielded expression the
second. -/
def mutationAny (q c : Finset ℚ) : Bool :=
  decide (∃ qa ∈ q, ∃ ca ∈ c, (0 < |qa - ca| ∧ |qa - ca| ≤ 1) ∧ |qa - ca| ≤ 1)

/-- Process one successfully parsed locus pair: lines 67-90 of the loop
(compared/identity bookkeeping, then the four-branch classification). -/
def stepParsed (t : Tally) (q c : Finset ℚ) : Tally :=
  let t1 := { t with compared := t.compared + 1,
                     identityMatches := t.identityMatches + (if q = c then 1 else 0) }
  if (q ∩ c).Nonempty then
    { t1 with consistent := t1.consistent + 1,
              clr := t1.clr * ((if c.card = 1 then (1 : ℚ) else 0.5) / 0.15) }
  else if mutationAny q c then
    { t1 with mutated := t1.mutated + 1, clr := t1.clr * (0.002 / 0.15) }
  else if q.card = 1 ∧ c.card = 1 then
    { t1 with inconclusive := t1.inconclusive + 1, clr := t1.clr * 0.5 }
  else
    { t1 with exclusions := t1.exclusions + 1, clr := t1.clr * 0.01 }

/-- Process one locus name for a (query, candidate) pair: lines 56-90,
including the missing-value skip of lines 60-62 and the two parses. -/
def stepLocus (qp cr : Profile) (t : Tally) (locus : String) : Except ParseError Tally :=
  let qv := trimChars (qp.getLocus locus).data
  let cv := trimChars (cr.getLocus locus).data
  if qv = ['-'] ∨ qv = [] ∨ cv = ['-'] ∨ cv = [] then
    .ok { t with inconclusive := t.inconclusive + 1 }
  else
    match parseAlleles qv with
    | .error e => .error e
    | .ok qa =>
      match parseAlleles cv with
      | .error e => .error e
      | .ok ca => .ok (stepParsed t qa ca)

/-- Run the locus loop over a list of locus names, threading the accumulator;
a parse error aborts the whole comparison, as an uncaught Python exception
does. -/
def tallyLoci (qp cr : Profile) : Tally → List String → Except ParseError Tally
  | t, [] => .ok t
  | t, l :: ls =>
    match stepLocus qp cr t l with
    | .error e => .error e
    | .ok t1 => tallyLoci qp cr t1 ls

/-- The full locus loop for one (query, candidate) pair (lines 47-90). -/
def tallyProfile (qp cr : Profile) : Except ParseError Tally :=
  tallyLoci qp cr initTally qp.lociNames

/-- One returned candidate record (lines 102-109). -/
structure CandidateScore where
  personId : String
  clr : ℚ
  posterior : ℚ
  consistent_loci : Nat
  mutated_loci : Nat
  inconclusive_loci : Nat
deriving DecidableEq

/-- Score one candidate row against the query (lines 43-109); the result is
none on each continue path (self-comparison, threshold filter, identity
filter) and some score when the candidate is appended to the list. -/
def scoreCandidate (qp cr : Profile) : Except ParseError (Option CandidateScore) :=
  if cr.personId = qp.personId then .ok none
  else
    match tallyProfile qp cr with
    | .error e => .error e
    | .ok t =>
      if 4 < t.exclusions ∨ t.consistent < 5 then .ok none
      else if 0 < t.compared ∧ (0.80 : ℚ) < (t.identityMatches : ℚ) / (t.compared : ℚ) then .ok none
      else
        .ok (some ⟨cr.personId, t.clr,
          if 0 < t.clr then t.clr / (t.clr + 1) else 0,
          t.consistent, t.mutated, t.inconclusive⟩)

/-- Scan the database rows in order, collecting the surviving candidate
scores in row order (the loop of line 42 with the append of line 102). -/
def collectSurvivors (qp : Profile) : List Profile → Except ParseError (List CandidateScore)
  | [] => .ok []
  | cr :: rest =>
    match scoreCandidate qp cr with
    | .error e => .error e
    | .ok r =>
      match collectSurvivors qp rest with
      | .error e => .error e
      | .ok rs => .ok (r.toList ++ rs)

/-- Sort comparator: Python's sort(key=lambda x: -x['clr']) on line 111 is a
stable ascending sort on -clr, i.e. a stable descending sort on clr. -/
def rankingLE (a b : CandidateScore) : Bool := decide (b.clr ≤ a.clr)

/-- Lines 38-112: the top-10 candidate list for one query profile.  The
stable sort of line 111 is modelled by List.mergeSort, which is stable. -/
def match_single (qp : Profile) (db : List Profile) : Except ParseError (List CandidateScore) :=
  match collectSurvivors qp db with
  | .error e => .error e
  | .ok survivors => .ok ((survivors.mergeSort rankingLE).take 10)

/-- The batch driver find_matches (lines 120-147): one match_single call per
query, pairing each query identifier with its (already capped) top-candidate
list.  There is no exception handler anywhere in the source, so an error from
any match_single call propagates out of the whole batch. -/
def find_matches (db : List Profile) : List Profile → Except ParseError (List (String × List CandidateScore))
  | [] => .ok []
  | q :: qs =>
    match match_single q db with
    | .error e => .error e
    | .ok tc =>
      match find_matches db qs with
      | .error e => .error e
      | .ok rest => .ok ((q.personId, tc.take 10) :: rest)

/-- Fallback record used only to state index-based adjacency facts. -/
def dummyScore : CandidateScore := ⟨"", 0, 0, 0, 0, 0⟩

/-- Concrete query used in witnesses and counterexamples: five comparable
heterozygous loci and one locus the candidate lacks. -/
def qp3 : Profile :=
  ⟨"Q1", [("L1", "9,10"), ("L2", "9,10"), ("L3", "9,10"), ("L4", "9,10"),
          ("L5", "9,10"), ("L6", "8")]⟩

/-- Concrete candidate sharing allele 9 at five loci with qp3 (each locus is a
Match that is not set-identical) and missing locus L6. -/
def cand3 : Profile :=
  ⟨"P1", [("L1", "9,11"), ("L2", "9,11"), ("L3", "9,11"), ("L4", "9,11"),
          ("L5", "9,11")]⟩

/-- A second candidate identical to cand3 except for its identifier, hence
with exactly the same CLR. -/
def cand3b : Profile :=
  ⟨"P2", [("L1", "9,11"), ("L2", "9,11"), ("L3", "9,11"), ("L4", "9,11"),
          ("L5", "9,11")]⟩

/-- The score the matcher produces for cand3 against qp3. -/
def score3 : CandidateScore := ⟨"P1", 100000/243, 100000/100243, 5, 0, 1⟩

/-- The score the matcher produces for cand3b against qp3. -/
def score3b : CandidateScore := ⟨"P2", 100000/243, 100000/100243, 5, 0, 1⟩

/-- A query carrying a raw genotype value that is not numeric. -/
def qpBad : Profile := ⟨"Q2", [("L1", "x")]⟩

/-- First database row scanned against qpBad. -/
def crA : Profile := ⟨"P1", [("L1", "7")]⟩

/-- Second database row, never reached because the scan aborts on the
first. -/
def crB : Profile := ⟨"P2", [("L1", "7")]⟩

/-- A query with a single missing locus, used as a below-threshold witness. -/
def qpT : Profile := ⟨"Q3", [("L1", "-")]⟩

/-- A candidate reaching consistent = 0 < 5 against qpT. -/
def crT : Profile := ⟨"P9", [("L1", "7")]⟩

/-- A query whose five loci are all exactly matched by crI. -/
def qpI : Profile :=
  ⟨"Q4", [("L1", "9,10"), ("L2", "9,10"), ("L3", "9,10"), ("L4", "9,10"),
          ("L5", "9,10")]⟩

/-- A candidate set-identical to qpI at every locus but with a different
person identifier. -/
def crI : Profile :=
  ⟨"P5", [("L1", "9,10"), ("L2", "9,10"), ("L3", "9,10"), ("L4", "9,10"),
          ("L5", "9,10")]⟩

/-- A database row with the same identifier as query qp3. -/
def selfRow : Profile := ⟨"Q1", []⟩

/-- A query profile with no loci at all. -/
def qpE : Profile := ⟨"Q9", []⟩

/-- A produced score carries the candidate's identifier, which differs from
the query's. -/
theorem scoreCandidate_ok_some {qp cr : Profile} {s : CandidateScore}
    (h : scoreCandidate qp cr = .ok (some s)) :
    s.personId = cr.personId ∧ cr.personId ≠ qp.personId := by
  unfold scoreCandidate at h
  split at h
  · exact absurd h (by simp)
  · rename_i hid
    split at h
    · exact absurd h (by simp)
    · split at h
      · exact absurd h (by simp)
      · split at h
        · exact absurd h (by simp)
        · refine ⟨?_, hid⟩
          injection h with h1
          injection h1 with h2
          exact congrArg CandidateScore.personId h2.symm

/-- Every score in a successful survivor list was produced by some database
row. -/
theorem collectSurvivors_mem {qp : Profile} :
    ∀ {db : List Profile} {l : List CandidateScore},
      collectSurvivors qp db = .ok l →
      ∀ s ∈ l, ∃ cr ∈ db, scoreCandidate qp cr = .ok (some s) := by
  intro db
  induction db with
  | nil =>
    intro l h s hs
    simp only [collectSurvivors] at h
    injection h with h1
    subst h1
    cases hs
  | cons cr rest ih =>
    intro l h s hs
    simp only [collectSurvivors] at h
    split at h
    · exact absurd h (by simp)
    · rename_i r hr
      split at h
      · exact absurd h (by simp)
      · rename_i rs hrs
        injection h with h1
        subst h1
        rcases List.mem_append.mp hs with hmem | hmem
        · have : r = some s := Option.mem_toList.mp hmem
          exact ⟨cr, List.mem_cons_self cr rest, this ▸ hr⟩
        · obtain ⟨cr1, hcr1, hsc⟩ := ih hrs s hmem
          exact ⟨cr1, List.mem_cons_of_mem cr hcr1, hsc⟩

/-- A successful survivor scan means every database row's comparison
succeeded. -/
theorem collectSurvivors_all_ok {qp : Profile} :
    ∀ {db : List Profile} {l : List CandidateScore},
      collectSurvivors qp db = .ok l →
      ∀ cr ∈ db, ∃ r, scoreCandidate qp cr = .ok r := by
  intro db
  induction db with
  | nil => intro l _ cr hcr; cases hcr
  | cons cr0 rest ih =>
    intro l h cr hcr
    simp only [collectSurvivors] at h
    split at h
    · exact absurd h (by simp)
    · rename_i r hr
      split at h
      · exact absurd h (by simp)
      · rename_i rs hrs
        rcases hcr with _ | hcr1
        · exact ⟨r, hr⟩
        · exact ih hrs cr (by assumption)

/-- Every entry of a successfully returned ranking was produced by some row of
the database. -/
theorem mem_ranking {qp : Profile} {db : List Profile} {res : List CandidateScore}
    (h : match_single qp db = .ok res) :
    ∀ s ∈ res, ∃ cr ∈ db, scoreCandidate qp cr = .ok (some s) := by
  unfold match_single at h
  split at h
  · exact absurd h (by simp)
  · rename_i l hl
    injection h with h1
    subst h1
    intro s hs
    exact collectSurvivors_mem hl s (List.mem_mergeSort.mp (List.mem_of_mem_take hs))

/-- The descending-CLR comparator is transitive. -/
theorem rankingLE_trans :
    ∀ a b c1 : CandidateScore, rankingLE a b → rankingLE b c1 → rankingLE a c1 := by
  intro a b c1 hab hbc
  simp only [rankingLE, decide_eq_true_eq] at *
  exact le_trans hbc hab

/-- The descending-CLR comparator is total. -/
theorem rankingLE_total :
    ∀ a b : CandidateScore, rankingLE a b || rankingLE b a := by
  intro a b
  simp only [rankingLE, Bool.or_eq_true, decide_eq_true_eq]
  exact le_total b.clr a.clr

/-- C1: for a pair of non-missing allele sets at one locus, the classification
and multiplier follow the ordered decision tree of lines 71-90.  Sharing an
allele value exactly makes the locus a Match multiplying the CLR by (1 if the
candidate set has exactly 1 distinct allele else 0.5)/0.15; otherwise a cross
pair at absolute distance in the open-closed range (0, 1] makes it a Mutation
with multiplier 0.002/0.15; otherwise two singleton sets make it
Dropout/Inconclusive with multiplier 0.5 (not divided by the frequency);
otherwise it is an Exclusion with multiplier 0.01.  The four guards are
mutually exclusive and exhaustive, so exactly one branch fires, incrementing
exactly that branch's counter and multiplying the CLR by exactly that
branch's multiplier. -/
theorem locus_decision_tree (t : Tally) (q c : Finset ℚ) :
    ((∃ a, a ∈ q ∧ a ∈ c) →
      stepParsed t q c =
        ⟨t.clr * ((if c.card = 1 then (1 : ℚ) else 0.5) / 0.15), t.consistent + 1,
          t.mutated, t.inconclusive, t.exclusions,
          t.identityMatches + (if q = c then 1 else 0), t.compared + 1⟩) ∧
    (¬ (∃ a, a ∈ q ∧ a ∈ c) →
     (∃ qa ∈ q, ∃ ca ∈ c, 0 < |qa - ca| ∧ |qa - ca| ≤ 1) →
      stepParsed t q c =
        ⟨t.clr * (0.002 / 0.15), t.consistent, t.mutated + 1, t.inconclusive,
          t.exclusions, t.identityMatches + (if q = c then 1 else 0), t.compared + 1⟩) ∧
    (¬ (∃ a, a ∈ q ∧ a ∈ c) →
     ¬ (∃ qa ∈ q, ∃ ca ∈ c, 0 < |qa - ca| ∧ |qa - ca| ≤ 1) →
     q.card = 1 → c.card = 1 →
      stepParsed t q c =
        ⟨t.clr * 0.5, t.consistent, t.mutated, t.inconclusive + 1, t.exclusions,
          t.identityMatches + (if q = c then 1 else 0), t.compared + 1⟩) ∧
    (¬ (∃ a, a ∈ q ∧ a ∈ c) →
     ¬ (∃ qa ∈ q, ∃ ca ∈ c, 0 < |qa - ca| ∧ |qa - ca| ≤ 1) →
     ¬ (q.card = 1 ∧ c.card = 1) →
      stepParsed t q c =
        ⟨t.clr * 0.01, t.consistent, t.mutated, t.inconclusive, t.exclusions + 1,
          t.identityMatches + (if q = c then 1 else 0), t.compared + 1⟩) := by
  have hshared : (∃ a, a ∈ q ∧ a ∈ c) ↔ (q ∩ c).Nonempty := by
    constructor
    · rintro ⟨a, haq, hac⟩
      exact ⟨a, Finset.mem_inter.mpr ⟨haq, hac⟩⟩
    · rintro ⟨a, ha⟩
      exact ⟨a, (Finset.mem_inter.mp ha).1, (Finset.mem_inter.mp ha).2⟩
  have hmut : mutationAny q c = true ↔
      (∃ qa ∈ q, ∃ ca ∈ c, 0 < |qa - ca| ∧ |qa - ca| ≤ 1) := by
    simp only [mutationAny, decide_eq_true_eq]
    constructor
    · rintro ⟨qa, hqa, ca, hca, hd, -⟩
      exact ⟨qa, hqa, ca, hca, hd⟩
    · rintro ⟨qa, hqa, ca, hca, hd⟩
      exact ⟨qa, hqa, ca, hca, hd, hd.2⟩
  refine ⟨?_, ?_, ?_, ?_⟩
  · intro hsh
    have hne : (q ∩ c).Nonempty := hshared.mp hsh
    simp only [stepParsed, if_pos hne]
  · intro hsh hm
    have hne : ¬ (q ∩ c).Nonempty := fun hx => hsh (hshared.mpr hx)
    have hmb : mutationAny q c = true := hmut.mpr hm
    simp only [stepParsed, if_neg hne, hmb, if_true]
  · intro hsh hm hq1 hc1
    have hne : ¬ (q ∩ c).Nonempty := fun hx => hsh (hshared.mpr hx)
    have hmb : mutationAny q c = false := by
      cases hb : mutationAny q c
      · rfl
      · exact absurd (hmut.mp hb) hm
    simp only [stepParsed, if_neg hne, hmb, Bool.false_eq_true, if_false,
      if_pos (And.intro hq1 hc1)]
  · intro hsh hm hcard
    have hne : ¬ (q ∩ c).Nonempty := fun hx => hsh (hshared.mpr hx)
    have hmb : mutationAny q c = false := by
      cases hb : mutationAny q c
      · rfl
      · exact absurd (hmut.mp hb) hm
    simp only [stepParsed, if_neg hne, hmb, Bool.false_eq_true, if_false, if_neg hcard]

/-- Witness for C1: a homozygous shared-allele locus takes the Match branch. -/
theorem locus_decision_tree_witness :
    stepParsed initTally {9} {9} =
      ⟨initTally.clr * ((if ({9} : Finset ℚ).card = 1 then (1 : ℚ) else 0.5) / 0.15),
        initTally.consistent + 1, initTally.mutated, initTally.inconclusive,
        initTally.exclusions,
        initTally.identityMatches + (if ({9} : Finset ℚ) = ({9} : Finset ℚ) then 1 else 0),
        initTally.compared + 1⟩ :=
  (locus_decision_tree initTally {9} {9}).1
    ⟨9, Finset.mem_singleton.mpr rfl, Finset.mem_singleton.mpr rfl⟩

/-- Counterexample to C2: with an unparsable value at locus L1, the very
first candidate comparison raises, match_single returns the error instead of
a ranking, and the batch driver find_matches propagates it: the remaining
row crB is never scanned and nothing is recorded. -/
theorem parse_error_aborts_scan_cex :
    match_single qpBad [crA, crB] = .error ⟨['x']⟩ ∧
      find_matches [crA, crB] [qpBad] = .error ⟨['x']⟩ := by
  with_unfolding_all exact ⟨rfl, rfl⟩

/-- C2 (amended): a ParseError is fatal to the entire query scan, not only to
the single candidate comparison in which it occurs: if any database row's
comparison fails to parse, the whole match_single call yields an error and no
ranking is produced for the query. -/
theorem parse_error_aborts_scan (qp cr : Profile) (db : List Profile) (e : ParseError)
    (hmem : cr ∈ db) (herr : scoreCandidate qp cr = .error e) :
    ∃ f, match_single qp db = .error f := by
  unfold match_single
  cases hres : collectSurvivors qp db with
  | error f => exact ⟨f, rfl⟩
  | ok l =>
    obtain ⟨r, hr⟩ := collectSurvivors_all_ok hres cr hmem
    rw [herr] at hr
    cases hr

/-- Witness for C2 (amended) at the concrete failing input. -/
theorem parse_error_aborts_scan_witness :
    ∃ f, match_single qpBad [crA, crB] = .error f :=
  parse_error_aborts_scan qpBad crA [crA, crB] ⟨['x']⟩
    (List.mem_cons_self crA [crB]) (by with_unfolding_all rfl)

/-- Each successfully processed locus increments exactly one of the four
outcome counters. -/
theorem counterSum_stepParsed (t : Tally) (q c : Finset ℚ) :
    (stepParsed t q c).consistent + (stepParsed t q c).mutated +
      (stepParsed t q c).inconclusive + (stepParsed t q c).exclusions
      = t.consistent + t.mutated + t.inconclusive + t.exclusions + 1 := by
  simp only [stepParsed]
  split_ifs <;> simp <;> omega

/-- Each locus step (missing or compared) adds exactly one to the counter
sum. -/
theorem counterSum_stepLocus {qp cr : Profile} {t : Tally} {l : String} {t1 : Tally}
    (h : stepLocus qp cr t l = .ok t1) :
    t1.consistent + t1.mutated + t1.inconclusive + t1.exclusions
      = t.consistent + t.mutated + t.inconclusive + t.exclusions + 1 := by
  simp only [stepLocus] at h
  split at h
  · injection h with h1
    subst h1
    simp
    omega
  · split at h
    · cases h
    · split at h
      · cases h
      · injection h with h1
        subst h1
        exact counterSum_stepParsed t _ _

/-- Folding the locus loop adds the number of processed loci to the counter
sum. -/
theorem counterSum_tallyLoci (qp cr : Profile) :
    ∀ (ls : List String) (t0 t : Tally), tallyLoci qp cr t0 ls = .ok t →
      t.consistent + t.mutated + t.inconclusive + t.exclusions
        = t0.consistent + t0.mutated + t0.inconclusive + t0.exclusions + ls.length := by
  intro ls
  induction ls with
  | nil =>
    intro t0 t h
    injection h with h1
    subst h1
    simp
  | cons l rest ih =>
    intro t0 t h
    simp only [tallyLoci] at h
    split at h
    · cases h
    · rename_i t1 hstep
      have h1 := ih t1 t h
      have h2 := counterSum_stepLocus hstep
      simp only [List.length_cons]
      omega

/-- Counterexample to C3: qp3 versus cand3 is scored (not skipped), yet
consistent + mutated + inconclusive + exclusions = 5 + 0 + 1 + 0 = 6 while
compared = 5, because the missing locus L6 increments inconclusive without
incrementing compared. -/
theorem counter_conservation_cex :
    tallyProfile qp3 cand3 = .ok ⟨100000/243, 5, 0, 1, 0, 0, 5⟩ ∧
      scoreCandidate qp3 cand3 = .ok (some ⟨"P1", 100000/243, 100000/100243, 5, 0, 1⟩) ∧
      5 + 0 + 1 + 0 ≠ 5 := by
  refine ⟨?_, ?_, by decide⟩
  · with_unfolding_all rfl
  · with_unfolding_all rfl

/-- C3 (amended): after iterating all query loci the counters satisfy
consistent + mutated + inconclusive + exclusions = number of query loci
iterated (equivalently compared plus the number of loci skipped as missing),
not the number of loci compared: a missing locus increments inconclusive but
not compared. -/
theorem counter_conservation (qp cr : Profile) (t : Tally)
    (h : tallyProfile qp cr = .ok t) :
    t.consistent + t.mutated + t.inconclusive + t.exclusions = qp.lociNames.length := by
  have h1 := counterSum_tallyLoci qp cr qp.lociNames initTally t h
  simpa [initTally] using h1

/-- Witness for C3 (amended) at the concrete scored comparison. -/
theorem counter_conservation_witness :
    5 + 0 + 1 + 0 = qp3.lociNames.length :=
  counter_conservation qp3 cand3 ⟨100000/243, 5, 0, 1, 0, 0, 5⟩ (by with_unfolding_all rfl)

/-- Reduction of scoreCandidate once the self-check fails and the tally is
known. -/
theorem scoreCandidate_ok_tally {qp cr : Profile} {t : Tally}
    (hid : ¬ cr.personId = qp.personId) (ht : tallyProfile qp cr = .ok t) :
    scoreCandidate qp cr =
      if 4 < t.exclusions ∨ t.consistent < 5 then .ok none
      else if 0 < t.compared ∧ (0.80 : ℚ) < (t.identityMatches : ℚ) / (t.compared : ℚ) then
        .ok none
      else
        .ok (some ⟨cr.personId, t.clr, if 0 < t.clr then t.clr / (t.clr + 1) else 0,
          t.consistent, t.mutated, t.inconclusive⟩) := by
  unfold scoreCandidate
  rw [if_neg hid, ht]

/-- C4: a candidate whose tally after all query loci has exclusions > 4 or
consistent < 5 produces no CandidateScore (lines 92-94), and a returned
ranking contains only scores actually produced by some database row, so such
a candidate never appears in any ranking regardless of its clr. -/
theorem threshold_rejection (qp cr : Profile) (t : Tally)
    (ht : tallyProfile qp cr = .ok t) (hbad : 4 < t.exclusions ∨ t.consistent < 5) :
    scoreCandidate qp cr = .ok none ∧
      ∀ (db : List Profile) (res : List CandidateScore), match_single qp db = .ok res →
        ∀ s ∈ res, ∃ cr1 ∈ db, scoreCandidate qp cr1 = .ok (some s) := by
  constructor
  · by_cases hid : cr.personId = qp.personId
    · unfold scoreCandidate
      rw [if_pos hid]
    · rw [scoreCandidate_ok_tally hid ht, if_pos hbad]
  · intro db res h s hs
    exact mem_ranking h s hs

/-- Witness for C4: consistent = 0 < 5 makes the candidate produce no
score. -/
theorem threshold_rejection_witness :
    scoreCandidate qpT crT = .ok none :=
  (threshold_rejection qpT crT ⟨1, 0, 0, 1, 0, 0, 0⟩ (by with_unfolding_all rfl)
    (Or.inr (by decide))).1

/-- C5: a candidate with compared > 0 whose fraction of set-identical
compared loci exceeds 0.80 produces no CandidateScore (lines 96-98), and a
returned ranking contains only produced scores, so it cannot appear in the
ranking however large its clr. -/
theorem identity_rejection (qp cr : Profile) (t : Tally)
    (ht : tallyProfile qp cr = .ok t) (h0 : 0 < t.compared)
    (hfrac : (0.80 : ℚ) < (t.identityMatches : ℚ) / (t.compared : ℚ)) :
    scoreCandidate qp cr = .ok none ∧
      ∀ (db : List Profile) (res : List CandidateScore), match_single qp db = .ok res →
        ∀ s ∈ res, ∃ cr1 ∈ db, scoreCandidate qp cr1 = .ok (some s) := by
  constructor
  · by_cases hid : cr.personId = qp.personId
    · unfold scoreCandidate
      rw [if_pos hid]
    · rw [scoreCandidate_ok_tally hid ht]
      by_cases hb : 4 < t.exclusions ∨ t.consistent < 5
      · rw [if_pos hb]
      · rw [if_neg hb, if_pos (And.intro h0 hfrac)]
  · intro db res h s hs
    exact mem_ranking h s hs

/-- Witness for C5: identity fraction 5/5 = 1 > 0.80 rejects the candidate
even though all five loci matched. -/
theorem identity_rejection_witness :
    scoreCandidate qpI crI = .ok none :=
  (identity_rejection qpI crI ⟨100000/243, 5, 0, 0, 0, 5, 5⟩ (by with_unfolding_all rfl)
    (by decide) (by with_unfolding_all decide)).1

/-- C6: a returned ranking has at most 10 entries and is sorted by descending
clr (lines 111-112): pairwise, and hence for every adjacent pair of indexed
entries, clr at i+1 is at most clr at i. -/
theorem ranking_sorted_capped (qp : Profile) (db : List Profile) (res : List CandidateScore)
    (h : match_single qp db = .ok res) :
    res.length ≤ 10 ∧ res.Pairwise (fun a b => b.clr ≤ a.clr) ∧
      ∀ i : Nat, i + 1 < res.length →
        (res.getD (i + 1) dummyScore).clr ≤ (res.getD i dummyScore).clr := by
  unfold match_single at h
  split at h
  · exact absurd h (by simp)
  · rename_i l hl
    injection h with h1
    subst h1
    have hsorted : ((l.mergeSort rankingLE).take 10).Pairwise (fun a b => b.clr ≤ a.clr) := by
      have hp := List.sorted_mergeSort rankingLE_trans rankingLE_total l
      have hp1 : (l.mergeSort rankingLE).Pairwise (fun a b => b.clr ≤ a.clr) :=
        hp.imp (fun hab => by simpa [rankingLE] using hab)
      exact hp1.sublist (List.take_sublist 10 _)
    refine ⟨?_, hsorted, ?_⟩
    · rw [List.length_take]
      exact min_le_left _ _
    · intro i hi
      have hi1 : i < ((l.mergeSort rankingLE).take 10).length := by omega
      rw [List.getD_eq_getElem _ _ hi, List.getD_eq_getElem _ _ hi1]
      exact List.pairwise_iff_getElem.mp hsorted i (i + 1) hi1 hi (by omega)

/-- Witness for C6: the single-survivor ranking for qp3 over [cand3]. -/
theorem ranking_sorted_capped_witness :
    ([score3] : List CandidateScore).length ≤ 10 ∧
      ([score3] : List CandidateScore).Pairwise (fun a b => b.clr ≤ a.clr) ∧
      ∀ i : Nat, i + 1 < ([score3] : List CandidateScore).length →
        (([score3] : List CandidateScore).getD (i + 1) dummyScore).clr ≤
          (([score3] : List CandidateScore).getD i dummyScore).clr :=
  ranking_sorted_capped qp3 [cand3] [score3] (by
    simp only [match_single, List.mergeSort]
    with_unfolding_all rfl)

/-- C7: a locus where either side's raw value, after trimming surrounding
whitespace, is empty or the missing sentinel (including a locus name absent
from the candidate record, which resolves to the default sentinel) is counted
as inconclusive, leaves the CLR unchanged (multiplier 1), is not routed
through the Match/Mutation/Dropout/Exclusion classification, and does not
increment the compared count (lines 57-62). -/
theorem missing_locus_inconclusive (qp cr : Profile) (t : Tally) (locus : String)
    (h : cr.loci.lookup locus = none ∨
         trimChars (qp.getLocus locus).data = ['-'] ∨
         trimChars (qp.getLocus locus).data = [] ∨
         trimChars (cr.getLocus locus).data = ['-'] ∨
         trimChars (cr.getLocus locus).data = []) :
    stepLocus qp cr t locus = .ok { t with inconclusive := t.inconclusive + 1 } := by
  have hcond : trimChars (qp.getLocus locus).data = ['-'] ∨
      trimChars (qp.getLocus locus).data = [] ∨
      trimChars (cr.getLocus locus).data = ['-'] ∨
      trimChars (cr.getLocus locus).data = [] := by
    rcases h with h0 | h1 | h2 | h3 | h4
    · refine Or.inr (Or.inr (Or.inl ?_))
      unfold Profile.getLocus
      rw [h0]
      rfl
    · exact Or.inl h1
    · exact Or.inr (Or.inl h2)
    · exact Or.inr (Or.inr (Or.inl h3))
    · exact Or.inr (Or.inr (Or.inr h4))
  simp only [stepLocus]
  rw [if_pos hcond]

/-- Witness for C7: qpT's value at L1 is the sentinel, so the locus only
increments inconclusive. -/
theorem missing_locus_inconclusive_witness :
    stepLocus qpT crT initTally "L1" = .ok ⟨1, 0, 0, 1, 0, 0, 0⟩ :=
  missing_locus_inconclusive qpT crT initTally "L1" (Or.inr (Or.inl (by decide)))

/-- C8: a database row whose person identifier equals the query's is skipped
without scoring (lines 43-45), and no entry of any returned ranking carries
the query's identifier, so that row never appears in the ranking. -/
theorem self_comparison_skipped (qp cr : Profile) (db : List Profile)
    (res : List CandidateScore) (hid : cr.personId = qp.personId)
    (h : match_single qp db = .ok res) :
    scoreCandidate qp cr = .ok none ∧ ∀ s ∈ res, s.personId ≠ qp.personId := by
  constructor
  · unfold scoreCandidate
    rw [if_pos hid]
  · intro s hs
    obtain ⟨cr1, _, hsc⟩ := mem_ranking h s hs
    obtain ⟨hps, hne⟩ := scoreCandidate_ok_some hsc
    rw [hps]
    exact hne

/-- Witness for C8: the self row is skipped and the empty ranking carries no
entry with the query's identifier. -/
theorem self_comparison_skipped_witness :
    scoreCandidate qp3 selfRow = .ok none ∧
      ∀ s ∈ ([] : List CandidateScore), s.personId ≠ qp3.personId :=
  self_comparison_skipped qp3 selfRow [selfRow] [] rfl (by
    simp only [match_single, List.mergeSort]
    with_unfolding_all rfl)

/-- C9: a query with no loci besides its identifier yields a defined result:
every candidate is compared over an empty locus set, each is rejected by the
consistent < 5 threshold, and the query's ranking is empty rather than an
error. -/
theorem empty_query_loci (qp : Profile) (db : List Profile) (h : qp.loci = []) :
    match_single qp db = .ok [] := by
  have hnames : qp.lociNames = [] := by
    simp [Profile.lociNames, h]
  have hscore : ∀ cr, scoreCandidate qp cr = .ok none := by
    intro cr
    by_cases hid : cr.personId = qp.personId
    · unfold scoreCandidate
      rw [if_pos hid]
    · have ht : tallyProfile qp cr = .ok initTally := by
        unfold tallyProfile
        rw [hnames]
        rfl
      rw [scoreCandidate_ok_tally hid ht, if_pos (Or.inr (by decide))]
  have hsurv : ∀ db1 : List Profile, collectSurvivors qp db1 = .ok [] := by
    intro db1
    induction db1 with
    | nil => rfl
    | cons cr rest ih =>
      simp only [collectSurvivors]
      rw [hscore cr, ih]
      rfl
  unfold match_single
  rw [hsurv db]
  simp

/-- Witness for C9 at a concrete empty-loci query. -/
theorem empty_query_loci_witness :
    match_single qpE [cand3] = .ok [] :=
  empty_query_loci qpE [cand3] rfl

/-- C10: survivors are collected in database row order, the ranking is the
10-entry prefix of the stable descending mergeSort of that list, and a pair
of survivors with exactly equal clr keeps its database order in the sorted
list: ties are broken by database row order. -/
theorem tie_order_stability (qp : Profile) (db : List Profile)
    (l : List CandidateScore) (a b : CandidateScore)
    (hs : collectSurvivors qp db = .ok l)
    (hpair : [a, b].Sublist l) (heq : a.clr = b.clr) :
    match_single qp db = .ok ((l.mergeSort rankingLE).take 10) ∧
      [a, b].Sublist (l.mergeSort rankingLE) := by
  constructor
  · unfold match_single
    rw [hs]
  · refine List.pair_sublist_mergeSort rankingLE_trans rankingLE_total ?_ hpair
    simp [rankingLE, heq]

/-- Witness for C10: two candidates with identical loci and clr survive in
database order. -/
theorem tie_order_stability_witness :
    match_single qp3 [cand3, cand3b] =
        .ok (([score3, score3b].mergeSort rankingLE).take 10) ∧
      [score3, score3b].Sublist ([score3, score3b].mergeSort rankingLE) :=
  tie_order_stability qp3 [cand3, cand3b] [score3, score3b] score3 score3b
    (by with_unfolding_all rfl) (List.Sublist.refl _) rfl

end CodeChallenge
